import Mathlib

/-!
# Verification of the WinDaq binary-format decoder

A shallow embedding of the `windaq` class of
`src/windaq_to_excel_converter.py` (the WinDaq `.wdq` binary decoder) and
proofs about it.

Modelling conventions:

* A file buffer is a `List Nat` of byte values; reads normalise each byte
  with `% 256`, mirroring the fact that Python `bytes` elements are below
  256.
* `struct.unpack_from` raising `struct.error` on an out-of-range offset,
  `ZeroDivisionError` from `dataSize/(2*nChannels)`, `UnicodeDecodeError`
  from single-byte `.decode("utf-8")`, `ValueError` from
  `numpy.frombuffer`, and `IndexError` from list indexing are modelled as
  values of the `DecodeError` type.  The Python code has no error type of
  its own; the extra constructors of `DecodeError` (`tooShort`,
  `truncatedHeader`, `invalidChannelCount`, `malformedDataSize`,
  `truncatedChannelTable`, `invalidAnnotationEncoding`,
  `invalidChannelIndex`) name the error taxonomy of the design document so
  that its sentences can be stated; the decoder translated from the source
  never produces them.
* IEEE-754 `f32`/`f64` fields are decoded to their exact rational values;
  infinities and NaNs (which no verified property exercises) are mapped
  to 0.  The two floating-point operations `__init__` performs — the
  true division `dataSize/(2*nChannels)` at line 70 and the
  multiplication inside `int(self.nSample*self.nChannels)` at line 123 —
  are modelled with exact binary64 round-to-nearest-even rounding
  (`roundF64`), reproducing Python's float results bit for bit
  (including the double-rounding shortfall at e.g. 7 channels and data
  size 1048564).  The calibration arithmetic of the `data` accessor is
  modelled exactly in `ℚ`; the concrete values verified about it are
  small dyadic rationals, on which binary64 arithmetic is itself exact.
* `datetime.datetime.fromtimestamp` depends on the machine's local
  timezone; the decoder therefore takes the environment's UTC offset in
  seconds as an explicit parameter `tz`, and the formatted local times are
  modelled by the shifted epoch seconds `e14 + tz` / `e15 + tz`, while
  `utcfromtimestamp` is the unshifted value.  `datetime`'s year-range
  limits are not modelled (no property below depends on them).
-/

/-- Errors the decoder can signal.  The first five constructors are the
Python exceptions the source code can actually raise; the remaining ones
are the typed taxonomy proposed by the design document, included only so
that its statements can be formalised (the source decoder never returns
them). -/
inductive DecodeError where
  | structError
  | zeroDivisionError
  | unicodeDecodeError
  | valueError
  | indexError
  | tooShort
  | truncatedHeader
  | invalidChannelCount
  | malformedDataSize
  | truncatedChannelTable
  | invalidAnnotationEncoding
  | invalidChannelIndex
  deriving DecidableEq

instance {ε α : Type} [DecidableEq ε] [DecidableEq α] : DecidableEq (Except ε α) := fun a b =>
  match a, b with
  | .ok x, .ok y =>
      if h : x = y then isTrue (by rw [h]) else isFalse (fun hc => h (Except.ok.inj hc))
  | .error x, .error y =>
      if h : x = y then isTrue (by rw [h]) else isFalse (fun hc => h (Except.error.inj hc))
  | .ok _, .error _ => isFalse (fun hc => Except.noConfusion hc)
  | .error _, .ok _ => isFalse (fun hc => Except.noConfusion hc)

/-- Model of `struct.unpack_from` byte access: read `sz` bytes starting at `off`.
A negative offset counts from the end of the buffer, as in Python's
`struct`; if the requested range is not inside the buffer the call raises
`struct.error`. -/
def structOff (len : Nat) (off : Int) : Int :=
  if off < 0 then (len : Int) + off else off

/-- Read `sz` bytes starting at offset `off`, failing with
`struct.error` when the requested range is not inside the buffer. -/
def readBytesAt (buf : List Nat) (off : Int) (sz : Nat) : Except DecodeError (List Nat) :=
  if 0 ≤ structOff buf.length off ∧ structOff buf.length off + sz ≤ buf.length then
    .ok (((buf.drop (structOff buf.length off).toNat).take sz).map (· % 256))
  else
    .error .structError

/-- Read `struct.unpack_from("<B", buf, off)`: unsigned 8-bit. -/
def readU8 (buf : List Nat) (off : Int) : Except DecodeError Nat := do
  let bs ← readBytesAt buf off 1
  pure (bs.getD 0 0)

/-- Read `struct.unpack_from("<H", buf, off)`: unsigned 16-bit little-endian. -/
def readU16 (buf : List Nat) (off : Int) : Except DecodeError Nat := do
  let bs ← readBytesAt buf off 2
  pure (bs.getD 0 0 + 256 * bs.getD 1 0)

/-- Read `struct.unpack_from("<L", buf, off)`: unsigned 32-bit little-endian. -/
def readU32 (buf : List Nat) (off : Int) : Except DecodeError Nat := do
  let bs ← readBytesAt buf off 4
  pure (bs.getD 0 0 + 256 * bs.getD 1 0 + 65536 * bs.getD 2 0 + 16777216 * bs.getD 3 0)

/-- Interpret an unsigned value as two's-complement signed of width `2^w`. -/
def toSigned (w : Nat) (u : Nat) : Int :=
  if u % 2 ^ w < 2 ^ (w - 1) then (u % 2 ^ w : Int) else (u % 2 ^ w : Int) - 2 ^ w

/-- Read `struct.unpack_from("<h", buf, off)`: signed 16-bit little-endian. -/
def readI16 (buf : List Nat) (off : Int) : Except DecodeError Int := do
  let u ← readU16 buf off
  pure (toSigned 16 u)

/-- Read `struct.unpack_from("<l", buf, off)`: signed 32-bit little-endian. -/
def readI32 (buf : List Nat) (off : Int) : Except DecodeError Int := do
  let u ← readU32 buf off
  pure (toSigned 32 u)

/-- Exact rational value of an IEEE-754 binary32 bit pattern (NaN and the
infinities, which no verified property exercises, are mapped to 0). -/
def f32Val (u : Nat) : ℚ :=
  let s : Nat := u / 2 ^ 31
  let e : Nat := u / 2 ^ 23 % 2 ^ 8
  let m : Nat := u % 2 ^ 23
  if e = 255 then 0
  else
    let mag : ℚ :=
      if e = 0 then (m : ℚ) / 2 ^ 149
      else ((2 ^ 23 + m : ℕ) : ℚ) * ((2 ^ (e - 1) : ℕ) : ℚ) / 2 ^ 149
    if s = 1 then -mag else mag

/-- Exact rational value of an IEEE-754 binary64 bit pattern (NaN and the
infinities mapped to 0, as for `f32Val`). -/
def f64Val (u : Nat) : ℚ :=
  let s : Nat := u / 2 ^ 63
  let e : Nat := u / 2 ^ 52 % 2 ^ 11
  let m : Nat := u % 2 ^ 52
  if e = 2047 then 0
  else
    let mag : ℚ :=
      if e = 0 then (m : ℚ) / 2 ^ 1074
      else ((2 ^ 52 + m : ℕ) : ℚ) * ((2 ^ (e - 1) : ℕ) : ℚ) / 2 ^ 1074
    if s = 1 then -mag else mag

/-- Read `struct.unpack_from("<f", buf, off)`: 32-bit float. -/
def readF32 (buf : List Nat) (off : Int) : Except DecodeError ℚ := do
  let bs ← readBytesAt buf off 4
  pure (f32Val (bs.getD 0 0 + 256 * bs.getD 1 0 + 65536 * bs.getD 2 0 + 16777216 * bs.getD 3 0))

/-- Read `struct.unpack_from("<d", buf, off)`: 64-bit float. -/
def readF64 (buf : List Nat) (off : Int) : Except DecodeError ℚ := do
  let bs ← readBytesAt buf off 8
  pure (f64Val (List.foldr (fun b acc => b + 256 * acc) 0 bs))

/-- Binary logarithm by structural recursion on a fuel argument (the
kernel-friendly counterpart of `Nat.log2`). -/
def log2Go (fuel : Nat) (n : Nat) : Nat :=
  match fuel with
  | 0 => 0
  | fuel + 1 => if 2 ≤ n then log2Go fuel (n / 2) + 1 else 0

/-- Floor of the binary logarithm of a natural number. -/
def nlog2 (n : Nat) : Nat := log2Go n n

/-- The power `2 ^ c` as a rational, for an integer exponent. -/
def pow2 (c : Int) : ℚ :=
  if 0 ≤ c then ((2 ^ c.toNat : ℕ) : ℚ) else 1 / ((2 ^ (-c).toNat : ℕ) : ℚ)

/-- The binary exponent `e` of a positive rational, with
`2 ^ e ≤ a < 2 ^ (e + 1)`. -/
def expOf (a : ℚ) : Int :=
  let base : Int := (nlog2 a.num.natAbs : Int) - (nlog2 a.den : Int)
  if pow2 (base + 1) ≤ a then base + 1
  else if pow2 base ≤ a then base
  else base - 1

/-- Round a non-negative rational to the nearest integer multiple of
`scale`, ties to even. -/
def roundScaled (a scale : ℚ) : ℚ :=
  let m := a / scale
  let n0 : Int := m.floor
  let fr := m - (n0 : ℚ)
  let k : Int :=
    if fr < 1 / 2 then n0
    else if (1 : ℚ) / 2 < fr then n0 + 1
    else if n0 % 2 = 0 then n0 else n0 + 1
  (k : ℚ) * scale

/-- IEEE-754 binary64 round-to-nearest-even: round `q` to 53 significant
bits (or to the fixed subnormal scale `2 ^ (-1074)` below `2 ^ (-1022)`).
Overflow is not modelled: every value this decoder rounds is bounded by
`2 ^ 40` (a `u32` data size divided or multiplied by a channel count
below 256), far inside the binary64 range. -/
def roundF64 (q : ℚ) : ℚ :=
  if q = 0 then 0
  else
    let a := |q|
    let e := max (expOf a) (-1022)
    let r := roundScaled a (pow2 (e - 52))
    if q < 0 then -r else r

/-- Python float division: exact quotient, then binary64 rounding (the
operands the decoder divides are integers below `2 ^ 53`, which convert
to float exactly). -/
def fdiv64 (a b : ℚ) : ℚ := roundF64 (a / b)

/-- Python float multiplication: exact product, then binary64 rounding. -/
def fmul64 (a b : ℚ) : ℚ := roundF64 (a * b)

/-- The sample count of the `numpy.frombuffer` view (line 123):
`int(self.nSample*self.nChannels)` computed in Python floats —
`nSample` is the binary64 quotient `dataSize/(2*n)` from line 70, the
product is rounded again to binary64, and `int` truncates (the value is
non-negative, so truncation is the floor). -/
def npCount (dataSize n : Nat) : Nat :=
  (fmul64 (fdiv64 (dataSize : ℚ) ((2 * n : ℕ) : ℚ)) (n : ℚ)).floor.toNat

/-- One entry of the per-channel header table, i.e. one iteration of the
`for channel in range(0, self.nChannels)` loop of `windaq.__init__`: the
values appended to the parallel lists `scalingSlope`, `scalingIntercept`,
`calScaling`, `calIntercept`, `engUnits`, `sampleRateDivisor`,
`phyChannel`. -/
structure Chan where
  scalingSlope : ℚ
  scalingIntercept : ℚ
  calScaling : ℚ
  calIntercept : ℚ
  engUnits : List Nat
  sampleRateDivisor : Nat
  phyChannel : Nat
  deriving DecidableEq

/-- The fixed-offset header fields read by `windaq.__init__` (lines
61-83 of the source), before the timezone-dependent time formatting is
applied. -/
structure Header where
  nChannels : Nat
  hChannels : Nat
  hChannelSize : Nat
  headSize : Int
  dataSize : Nat
  nSample : ℚ
  trailerSize : Nat
  annoSize : Nat
  timeStep : ℚ
  e14 : Int
  e15 : Int
  packed : Nat
  hiRes : Nat
  deriving DecidableEq

instance : Inhabited Header :=
  ⟨{ nChannels := 0, hChannels := 0, hChannelSize := 0, headSize := 0, dataSize := 0,
     nSample := 0, trailerSize := 0, annoSize := 0, timeStep := 0, e14 := 0, e15 := 0,
     packed := 0, hiRes := 0 }⟩

/-- The fully decoded state of a `windaq` object after `__init__`
returns: header scalars, channel table, split annotations and the
`npdata` sample view. -/
structure Recording where
  nChannels : Nat
  hChannels : Nat
  hChannelSize : Nat
  headSize : Int
  dataSize : Nat
  nSample : ℚ
  trailerSize : Nat
  annoSize : Nat
  timeStep : ℚ
  fileCreatedRaw : Int
  fileCreated : Int
  fileWritten : Int
  packed : Nat
  hiRes : Nat
  chans : List Chan
  annots : List (List Nat)
  npdata : List Int
  deriving DecidableEq

instance : Inhabited Recording :=
  ⟨{ nChannels := 0, hChannels := 0, hChannelSize := 0, headSize := 0, dataSize := 0,
     nSample := 0, trailerSize := 0, annoSize := 0, timeStep := 0, fileCreatedRaw := 0,
     fileCreated := 0, fileWritten := 0, packed := 0, hiRes := 0, chans := [],
     annots := [], npdata := [] }⟩

/-- Channel-count derivation, lines 61-64 of the source: if the 16-bit
field at offset 2 is at least 144 the count is the full byte at offset 0,
otherwise that byte masked with 31. -/
def channelCountOf (buf : List Nat) : Except DecodeError Nat := do
  let v ← readU16 buf 2
  let b0 ← readU8 buf 0
  pure (if 144 ≤ v then b0 else b0 &&& 31)

/-- Python true division `dataSize/(2*nChannels)` (line 70 of the
source): raises `ZeroDivisionError` when the channel count is 0,
otherwise produces the binary64-rounded quotient. -/
def sampleCount (dataSize n : Nat) : Except DecodeError ℚ :=
  if n = 0 then .error .zeroDivisionError
  else pure (fdiv64 (dataSize : ℚ) ((2 * n : ℕ) : ℚ))

/-- The header reads of `windaq.__init__` (lines 61-83), in source order. -/
def decodeHeader (buf : List Nat) : Except DecodeError Header := do
  let n ← channelCountOf buf
  let hChannels ← readU8 buf 4
  let hChannelSize ← readU8 buf 5
  let headSize ← readI16 buf 6
  let dataSize ← readU32 buf 8
  let nSample ← sampleCount dataSize n
  let trailerSize ← readU32 buf 12
  let annoSize ← readU16 buf 16
  let timeStep ← readF64 buf 28
  let e14 ← readI32 buf 36
  let e15 ← readI32 buf 40
  let flags ← readU16 buf 100
  pure { nChannels := n, hChannels := hChannels, hChannelSize := hChannelSize,
         headSize := headSize, dataSize := dataSize, nSample := nSample,
         trailerSize := trailerSize, annoSize := annoSize, timeStep := timeStep,
         e14 := e14, e15 := e15,
         packed := (flags &&& 16384) >>> 14, hiRes := flags &&& 2 }

/-- Divisor-byte read of the channel loop (lines 104-107): only when the
file is packed is the byte at `off` read; otherwise the divisor is 1. -/
def readDivisor (buf : List Nat) (packed : Nat) (off : Int) : Except DecodeError Nat :=
  if packed ≠ 0 then readU8 buf off else pure 1

/-- The channel-table loop of `windaq.__init__` (lines 96-109), reading
entries for channel indices `i, i+1, ...` while `rem` entries remain.
Each entry lives at `channelOffset = hChannels + hChannelSize * channel`
and its fields are read at the source's cumulative offsets. -/
def readChansGo (buf : List Nat) (hChannels hChannelSize packed : Nat) (i : Nat) :
    Nat → Except DecodeError (List Chan)
  | 0 => .ok []
  | rem + 1 => do
    let off : Int := (hChannels : Int) + hChannelSize * i
    let scalingSlope ← readF32 buf off
    let scalingIntercept ← readF32 buf (off + 4)
    let calScaling ← readF64 buf (off + 4 + 4)
    let calIntercept ← readF64 buf (off + 4 + 4 + 8)
    let engUnits ← readBytesAt buf (off + 4 + 4 + 8 + 8) 6
    let sampleRateDivisor ← readDivisor buf packed (off + 4 + 4 + 8 + 8 + 6 + 1)
    let phyChannel ← readU8 buf (off + 4 + 4 + 8 + 8 + 6 + 1 + 1)
    let rest ← readChansGo buf hChannels hChannelSize packed (i + 1) rem
    pure ({ scalingSlope := scalingSlope, scalingIntercept := scalingIntercept,
            calScaling := calScaling, calIntercept := calIntercept,
            engUnits := engUnits, sampleRateDivisor := sampleRateDivisor,
            phyChannel := phyChannel } :: rest)

/-- The whole channel table: one entry per channel, starting at index 0. -/
def readChannels (buf : List Nat) (hChannels hChannelSize packed n : Nat) :
    Except DecodeError (List Chan) :=
  readChansGo buf hChannels hChannelSize packed 0 n

/-- The annotation loop of `windaq.__init__` (lines 116-117): one byte at
a time, `struct.unpack_from('c', ...)` followed by `.decode("utf-8")` of
that single byte, which succeeds exactly when the byte is below 128. -/
def annoGo (buf : List Nat) (aOff : Int) (i : Nat) :
    Nat → Except DecodeError (List Nat)
  | 0 => .ok []
  | rem + 1 => do
    let b ← readU8 buf (aOff + i)
    if 128 ≤ b then Except.error DecodeError.unicodeDecodeError
    else do
      let rest ← annoGo buf aOff (i + 1) rem
      pure (b :: rest)

/-- All `annoSize` annotation bytes, read and UTF-8-decoded one byte at a
time starting at `aOff`. -/
def readAnnots (buf : List Nat) (aOff : Int) (size : Nat) : Except DecodeError (List Nat) :=
  annoGo buf aOff 0 size

/-- Signed 16-bit little-endian samples for the `numpy.frombuffer` view:
`count` values starting at byte `base` (bounds already checked). -/
def readI16s (buf : List Nat) (base count : Nat) : List Int :=
  (List.range count).map fun k =>
    toSigned 16 (buf.getD (base + 2 * k) 0 % 256 + 256 * (buf.getD (base + 2 * k + 1) 0 % 256))

/-- Model of `numpy.frombuffer(fcontents, int16-LE, count, offset=headSize)` (line
123): `ValueError` on a negative offset or when `2*count` bytes starting
at the offset do not fit in the buffer. -/
def mkNpdata (buf : List Nat) (headSize : Int) (count : Nat) : Except DecodeError (List Int) :=
  if headSize < 0 then .error .valueError
  else if buf.length < headSize.toNat + 2 * count then .error .valueError
  else .ok (readI16s buf headSize.toNat count)

/-- Model of `windaq.__init__`: the whole decode of a file buffer.  `tz` is the
environment's UTC offset in seconds, entering only through the
`datetime.datetime.fromtimestamp` renderings `fileCreated` and
`fileWritten` (lines 79-80); `fileCreatedRaw` uses `utcfromtimestamp`
and is timezone-independent. -/
def decode (buf : List Nat) (tz : Int) : Except DecodeError Recording := do
  let h ← decodeHeader buf
  let chans ← readChannels buf h.hChannels h.hChannelSize h.packed h.nChannels
  let annoBytes ← readAnnots buf ((h.headSize + h.dataSize + h.trailerSize : Int)) h.annoSize
  let npdata ← mkNpdata buf h.headSize (fmul64 h.nSample (h.nChannels : ℚ)).floor.toNat
  pure { nChannels := h.nChannels, hChannels := h.hChannels, hChannelSize := h.hChannelSize,
         headSize := h.headSize, dataSize := h.dataSize, nSample := h.nSample,
         trailerSize := h.trailerSize, annoSize := h.annoSize, timeStep := h.timeStep,
         fileCreatedRaw := h.e14, fileCreated := h.e14 + tz, fileWritten := h.e15 + tz,
         packed := h.packed, hiRes := h.hiRes, chans := chans,
         annots := annoBytes.splitOn 0, npdata := npdata }

/-- The recording decoded from `buf` (or the default record when decoding
fails); convenience accessor for stating concrete facts. -/
def getRec (buf : List Nat) (tz : Int) : Recording :=
  (decode buf tz).toOption.getD default

/-- The header decoded from `buf` (or the default header). -/
def getHdr (buf : List Nat) : Header :=
  (decodeHeader buf).toOption.getD default

/-- Normalisation of a Python list index: a negative index counts from
the end of the list. -/
def pyIdxOf (len : Nat) (i : Int) : Int :=
  if i < 0 then (len : Int) + i else i

/-- Bounds-checked list access at an already-normalised index. -/
def pyIndexAt {α : Type} (l : List α) (j : Int) : Except DecodeError α :=
  if h : 0 ≤ j ∧ j < l.length then
    .ok (l.get ⟨j.toNat, by omega⟩)
  else
    .error .indexError

/-- Python list indexing `l[i]`: a negative index counts from the end;
an index out of range raises `IndexError`. -/
def pyIndex {α : Type} (l : List α) (i : Int) : Except DecodeError α :=
  pyIndexAt l (pyIdxOf l.length i)

/-- The normalised start index of the Python slice `l[start::step]`: a
negative `start` becomes `max (len + start) 0`, a non-negative one is
capped at `len`. -/
def pySliceStart (len : Nat) (start : Int) : Nat :=
  if start < 0 then len - (-start).toNat else min start.toNat len

/-- The index sequence selected by the Python slice `l[start::step]` on a
list of length `len` (for a positive `step`): from the normalised start
the indices advance by `step` while below `len`. -/
def pySliceIdx (len : Nat) (start : Int) (step : Nat) : List Nat :=
  List.range' (pySliceStart len start)
    ((len - pySliceStart len start + step - 1) / step) step

/-- Python slice `l[start::step]`; `step = 0` raises `ValueError`. -/
def pySlice {α : Type} (l : List α) (start : Int) (step : Nat) :
    Except DecodeError (List α) :=
  if step = 0 then .error .valueError
  else .ok ((pySliceIdx l.length start step).filterMap fun i => l.get? i)

/-- The raw-to-scaled conversion of `windaq.data` (lines 132-135): in
high resolution multiply the raw value by 0.25, otherwise take
`numpy.floor` of that product. -/
def scaledRaw (hiRes : Nat) (r : Int) : ℚ :=
  if hiRes ≠ 0 then (r : ℚ) * (1 / 4) else ((⌊(r : ℚ) * (1 / 4)⌋ : ℤ) : ℚ)

/-- Model of `windaq.data(channelNumber)` (lines 125-138): slice the interleaved
sample view starting at `channelNumber - 1` with stride `nChannels`,
scale each raw value, then apply the channel's calibration
`calScaling[c-1] * temp + calIntercept[c-1]`.  The source's intermediate
`temp` (a pure numpy array computation) is inlined into the final
expression, which is behaviourally identical. -/
def data (rec : Recording) (channelNumber : Int) : Except DecodeError (List ℚ) := do
  let raw ← pySlice rec.npdata (channelNumber - 1) rec.nChannels
  let cs ← pyIndex (rec.chans.map Chan.calScaling) (channelNumber - 1)
  let ci ← pyIndex (rec.chans.map Chan.calIntercept) (channelNumber - 1)
  pure ((raw.map (scaledRaw rec.hiRes)).map fun t => cs * t + ci)

/-- Python `str.strip()` whitespace test on a byte below 128 (the six
ASCII whitespace characters 9-13 and 32, plus the separator characters
28-31, which Python's `str.isspace` also accepts; `unit` only strips
bytes that already passed the UTF-8 check, so only this range occurs). -/
def isSpaceByte (b : Nat) : Bool :=
  b = 32 || b = 9 || b = 10 || b = 13 || b = 11 || b = 12 ||
    b = 28 || b = 29 || b = 30 || b = 31

/-- Python `str.strip()`: drop leading and trailing whitespace. -/
def stripBytes (l : List Nat) : List Nat :=
  ((l.dropWhile isSpaceByte).reverse.dropWhile isSpaceByte).reverse

/-- Model of `windaq.unit(channelNumber)` (lines 152-164): decode the six unit
bytes one at a time as UTF-8 (failing on any byte at or above 128),
remove the NUL bytes and strip whitespace. -/
def unit (rec : Recording) (channelNumber : Int) : Except DecodeError (List Nat) := do
  let eu ← pyIndex (rec.chans.map Chan.engUnits) (channelNumber - 1)
  if eu.all (fun b => b < 128) then
    pure (stripBytes (eu.filter fun b => b ≠ 0))
  else
    Except.error DecodeError.unicodeDecodeError

/-- Model of `windaq.chAnnotation(channelNumber)` (lines 166-170). -/
def chAnnot (rec : Recording) (channelNumber : Int) : Except DecodeError (List Nat) :=
  pyIndex rec.annots (channelNumber - 1)

/-- A 36-byte channel-table entry used by the concrete test buffers:
scaling slope 1.0 (f32), scaling intercept 0.0 (f32), calibration scale
1.0 (f64), calibration intercept 0.0 (f64), unit tag "mV" padded with
NULs, then a zero byte, a zero divisor byte and the physical channel
byte `phy` at entry offset 32. -/
def chanEntryBytes (phy : Nat) : List Nat :=
  [0, 0, 128, 63] ++ [0, 0, 0, 0] ++ [0, 0, 0, 0, 0, 0, 240, 63] ++
    List.replicate 8 0 ++ [109, 86, 0, 0, 0, 0] ++ [0, 0, phy, 0, 0, 0]

/-- A well-formed two-channel file: version field 143, channel-count
byte 2, channel table at offset 110 with 36-byte entries, header size
182, data size 8 (two samples per channel, interleaved raw values
1,2,3,4), no trailer, and the given annotation bytes (their length is
patched into the annotation-size field by the caller). -/
def bufBase (annoSize : Nat) (annoBytes : List Nat) : List Nat :=
  [2, 0, 143, 0, 110, 36, 182, 0, 8, 0, 0, 0, 0, 0, 0, 0, annoSize, 0] ++
    List.replicate 10 0 ++ [0, 0, 0, 0, 0, 0, 240, 63] ++ List.replicate 74 0 ++
    chanEntryBytes 1 ++ chanEntryBytes 2 ++ [1, 0, 2, 0, 3, 0, 4, 0] ++ annoBytes

/-- A fully well-formed buffer: annotations "A\0B\0", all ASCII. -/
def bufOK : List Nat := bufBase 4 [65, 0, 66, 0]

/-- As `bufOK` but the first annotation byte is 195 (0xC3, the first
byte of a valid two-byte UTF-8 character). -/
def bufBadAnno : List Nat := bufBase 4 [195, 169, 66, 0]

/-- A one-channel file whose `data_size` (3) is not a multiple of
`2 * channel_count` (2): sample bytes `7, 0` followed by a dangling odd
byte `99`. -/
def bufOdd : List Nat :=
  [1, 0, 143, 0, 110, 36, 182, 0, 3, 0, 0, 0, 0, 0, 0, 0, 0, 0] ++
    List.replicate 10 0 ++ [0, 0, 0, 0, 0, 0, 240, 63] ++ List.replicate 74 0 ++
    chanEntryBytes 1 ++ chanEntryBytes 2 ++ [7, 0, 99]

/-- A 12-byte buffer whose channel-count byte is 32 under version 143,
so the masked channel count is `32 &&& 31 = 0`. -/
def bufZeroCh : List Nat := [32, 0, 143, 0, 0, 0, 0, 0, 0, 0, 0, 0]

/-- A 103-byte buffer (one channel, channel table overlapping the
header at offset 4 with stride 0, header size 0, no data, no trailer,
no annotations) on which the decoder succeeds. -/
def buf103 : List Nat := [1, 0, 143, 0, 4, 0] ++ List.replicate 97 0

/-- A buffer with channel-count byte 37 and version field 143, as in the
channel-count derivation property. -/
def bufV143 : List Nat := [37, 0, 143, 0, 4, 0] ++ List.replicate 97 0

/-- The same buffer with version field 144. -/
def bufV144 : List Nat := [37, 0, 144, 0, 4, 0] ++ List.replicate 97 0

/-- A packed one-channel file whose single channel entry (at offset 110)
has byte value 5 at entry offset 30, 6 at entry offset 31 and 9 at entry
offset 32, to separate the competing layout readings. -/
def bufC8p : List Nat :=
  [1, 0, 143, 0, 110, 36, 0, 0, 0, 0, 0, 0, 0, 0, 0, 0, 0, 0] ++
    List.replicate 82 0 ++ [0, 64] ++ List.replicate 8 0 ++
    List.replicate 30 0 ++ [5, 6, 9]

/-- The unpacked variant of `bufC8p` (flag word 0). -/
def bufC8u : List Nat :=
  [1, 0, 143, 0, 110, 36, 0, 0, 0, 0, 0, 0, 0, 0, 0, 0, 0, 0] ++
    List.replicate 82 0 ++ [0, 0] ++ List.replicate 8 0 ++
    List.replicate 30 0 ++ [5, 6, 9]

/-- Replace the two timezone-dependent fields (the
`datetime.datetime.fromtimestamp` renderings) by 0, keeping everything
else. -/
def eraseLocalTimes (r : Recording) : Recording :=
  { r with fileCreated := 0, fileWritten := 0 }

/-- The claimed channel-entry layout of the design document, for
comparison with the decoder: the divisor byte sits directly after the
6-byte unit tag, at entry offset 30. -/
def specLayoutDivisor (buf : List Nat) (hChannels hChannelSize : Nat) (packed : Bool)
    (i : Nat) : Except DecodeError Nat :=
  if packed then readU8 buf ((hChannels : Int) + hChannelSize * i + 30) else pure 1

/-- The claimed channel-entry layout of the design document: the
physical-channel byte follows the (conditionally present) divisor byte,
so its entry offset is 31 when `packed` and 30 otherwise. -/
def specLayoutPhy (buf : List Nat) (hChannels hChannelSize : Nat) (packed : Bool)
    (i : Nat) : Except DecodeError Nat :=
  readU8 buf ((hChannels : Int) + hChannelSize * i + 30 + (if packed then 1 else 0))

theorem ok_bind {ε α β : Type} (a : α) (f : α → Except ε β) :
    (Except.ok a >>= f) = f a := rfl

theorem error_bind {ε α β : Type} (e : ε) (f : α → Except ε β) :
    ((Except.error e : Except ε α) >>= f) = Except.error e := rfl

theorem pure_eq_ok {ε α : Type} (a : α) : (pure a : Except ε α) = Except.ok a := rfl

theorem bind_eq_ok {ε α β : Type} {x : Except ε α} {f : α → Except ε β} {b : β}
    (h : (x >>= f) = Except.ok b) : ∃ a, x = Except.ok a ∧ f a = Except.ok b := by
  cases x with
  | ok a => exact ⟨a, rfl, h⟩
  | error e => rw [error_bind] at h; exact Except.noConfusion h

theorem readBytesAt_cases (buf : List Nat) (off : Int) (sz : Nat) :
    (∃ bs, readBytesAt buf off sz = Except.ok bs) ∨
      readBytesAt buf off sz = Except.error DecodeError.structError := by
  unfold readBytesAt
  split
  · exact Or.inl ⟨_, rfl⟩
  · exact Or.inr rfl

theorem readU8_cases (buf : List Nat) (off : Int) :
    (∃ v, readU8 buf off = Except.ok v) ∨
      readU8 buf off = Except.error DecodeError.structError := by
  unfold readU8
  rcases readBytesAt_cases buf off 1 with ⟨bs, h⟩ | h <;> rw [h]
  · exact Or.inl ⟨_, rfl⟩
  · exact Or.inr rfl

theorem readU16_cases (buf : List Nat) (off : Int) :
    (∃ v, readU16 buf off = Except.ok v) ∨
      readU16 buf off = Except.error DecodeError.structError := by
  unfold readU16
  rcases readBytesAt_cases buf off 2 with ⟨bs, h⟩ | h <;> rw [h]
  · exact Or.inl ⟨_, rfl⟩
  · exact Or.inr rfl

theorem readU32_cases (buf : List Nat) (off : Int) :
    (∃ v, readU32 buf off = Except.ok v) ∨
      readU32 buf off = Except.error DecodeError.structError := by
  unfold readU32
  rcases readBytesAt_cases buf off 4 with ⟨bs, h⟩ | h <;> rw [h]
  · exact Or.inl ⟨_, rfl⟩
  · exact Or.inr rfl

theorem readI16_cases (buf : List Nat) (off : Int) :
    (∃ v, readI16 buf off = Except.ok v) ∨
      readI16 buf off = Except.error DecodeError.structError := by
  unfold readI16
  rcases readU16_cases buf off with ⟨v, h⟩ | h <;> rw [h]
  · exact Or.inl ⟨_, rfl⟩
  · exact Or.inr rfl

theorem readI32_cases (buf : List Nat) (off : Int) :
    (∃ v, readI32 buf off = Except.ok v) ∨
      readI32 buf off = Except.error DecodeError.structError := by
  unfold readI32
  rcases readU32_cases buf off with ⟨v, h⟩ | h <;> rw [h]
  · exact Or.inl ⟨_, rfl⟩
  · exact Or.inr rfl

theorem readF64_cases (buf : List Nat) (off : Int) :
    (∃ v, readF64 buf off = Except.ok v) ∨
      readF64 buf off = Except.error DecodeError.structError := by
  unfold readF64
  rcases readBytesAt_cases buf off 8 with ⟨bs, h⟩ | h <;> rw [h]
  · exact Or.inl ⟨_, rfl⟩
  · exact Or.inr rfl

theorem channelCountOf_cases (buf : List Nat) :
    (∃ n, channelCountOf buf = Except.ok n) ∨
      channelCountOf buf = Except.error DecodeError.structError := by
  unfold channelCountOf
  rcases readU16_cases buf 2 with ⟨v, h⟩ | h <;> rw [h]
  · rw [ok_bind]
    rcases readU8_cases buf 0 with ⟨b, h'⟩ | h' <;> rw [h']
    · exact Or.inl ⟨_, rfl⟩
    · exact Or.inr rfl
  · exact Or.inr rfl

theorem channelCountOf_ok_elim {buf : List Nat} {n : Nat}
    (h : channelCountOf buf = Except.ok n) :
    ∃ v b0, readU16 buf 2 = Except.ok v ∧ readU8 buf 0 = Except.ok b0 ∧
      n = if 144 ≤ v then b0 else b0 &&& 31 := by
  unfold channelCountOf at h
  obtain ⟨v, hv, h⟩ := bind_eq_ok h
  obtain ⟨b0, hb0, h⟩ := bind_eq_ok h
  exact ⟨v, b0, hv, hb0, (Except.ok.inj h).symm⟩

theorem structOff_ofNat (len : Nat) (k : Nat) : structOff len (k : Int) = k := by
  unfold structOff
  rw [if_neg (by omega)]

theorem readBytesAt_ok_len {buf : List Nat} {k sz : Nat} {bs : List Nat}
    (h : readBytesAt buf (k : Int) sz = Except.ok bs) : k + sz ≤ buf.length := by
  unfold readBytesAt at h
  rw [structOff_ofNat] at h
  split at h
  · next hc => exact_mod_cast hc.2
  · exact Except.noConfusion h

theorem readU16_ok_len {buf : List Nat} {k : Nat} {v : Nat}
    (h : readU16 buf (k : Int) = Except.ok v) : k + 2 ≤ buf.length := by
  unfold readU16 at h
  obtain ⟨bs, hbs, _⟩ := bind_eq_ok h
  exact readBytesAt_ok_len hbs

theorem decodeHeader_ok_elim {buf : List Nat} {hd : Header}
    (h : decodeHeader buf = Except.ok hd) :
    ∃ n hCh hSz hdSz dSz trl ann ts e14 e15 flags,
      channelCountOf buf = Except.ok n ∧ n ≠ 0 ∧
      readU8 buf 4 = Except.ok hCh ∧ readU8 buf 5 = Except.ok hSz ∧
      readI16 buf 6 = Except.ok hdSz ∧ readU32 buf 8 = Except.ok dSz ∧
      readU32 buf 12 = Except.ok trl ∧ readU16 buf 16 = Except.ok ann ∧
      readF64 buf 28 = Except.ok ts ∧ readI32 buf 36 = Except.ok e14 ∧
      readI32 buf 40 = Except.ok e15 ∧ readU16 buf 100 = Except.ok flags ∧
      hd = { nChannels := n, hChannels := hCh, hChannelSize := hSz, headSize := hdSz,
             dataSize := dSz, nSample := fdiv64 (dSz : ℚ) ((2 * n : ℕ) : ℚ),
             trailerSize := trl,
             annoSize := ann, timeStep := ts, e14 := e14, e15 := e15,
             packed := (flags &&& 16384) >>> 14, hiRes := flags &&& 2 } := by
  unfold decodeHeader at h
  obtain ⟨n, hn, h⟩ := bind_eq_ok h
  obtain ⟨hCh, hhCh, h⟩ := bind_eq_ok h
  obtain ⟨hSz, hhSz, h⟩ := bind_eq_ok h
  obtain ⟨hdSz, hhdSz, h⟩ := bind_eq_ok h
  obtain ⟨dSz, hdS, h⟩ := bind_eq_ok h
  obtain ⟨nS, hnS, h⟩ := bind_eq_ok h
  obtain ⟨trl, htrl, h⟩ := bind_eq_ok h
  obtain ⟨ann, hann, h⟩ := bind_eq_ok h
  obtain ⟨ts, hts, h⟩ := bind_eq_ok h
  obtain ⟨e14, he14, h⟩ := bind_eq_ok h
  obtain ⟨e15, he15, h⟩ := bind_eq_ok h
  obtain ⟨flags, hflags, h⟩ := bind_eq_ok h
  unfold sampleCount at hnS
  by_cases h0 : n = 0
  · rw [if_pos h0] at hnS
    exact absurd hnS (by intro hc; exact Except.noConfusion hc)
  · rw [if_neg h0, pure_eq_ok] at hnS
    replace hnS := (Except.ok.inj hnS)
    refine ⟨n, hCh, hSz, hdSz, dSz, trl, ann, ts, e14, e15, flags,
      hn, h0, hhCh, hhSz, hhdSz, hdS, htrl, hann, hts, he14, he15, hflags, ?_⟩
    rw [pure_eq_ok] at h
    replace h := (Except.ok.inj h).symm
    rw [h, ← hnS]

theorem decodeHeader_cases (buf : List Nat) :
    (∃ hd, decodeHeader buf = Except.ok hd) ∨
      decodeHeader buf = Except.error DecodeError.structError ∨
      decodeHeader buf = Except.error DecodeError.zeroDivisionError := by
  unfold decodeHeader
  rcases channelCountOf_cases buf with ⟨n, hn⟩ | hn
  swap
  · rw [hn, error_bind]; exact Or.inr (Or.inl rfl)
  rw [hn, ok_bind]
  rcases readU8_cases buf 4 with ⟨a1, h1⟩ | h1
  swap
  · rw [h1, error_bind]; exact Or.inr (Or.inl rfl)
  rw [h1, ok_bind]
  rcases readU8_cases buf 5 with ⟨a2, h2⟩ | h2
  swap
  · rw [h2, error_bind]; exact Or.inr (Or.inl rfl)
  rw [h2, ok_bind]
  rcases readI16_cases buf 6 with ⟨a3, h3⟩ | h3
  swap
  · rw [h3, error_bind]; exact Or.inr (Or.inl rfl)
  rw [h3, ok_bind]
  rcases readU32_cases buf 8 with ⟨a4, h4⟩ | h4
  swap
  · rw [h4, error_bind]; exact Or.inr (Or.inl rfl)
  rw [h4, ok_bind]
  by_cases h0 : n = 0
  · rw [show sampleCount a4 n = Except.error DecodeError.zeroDivisionError by
      unfold sampleCount; rw [if_pos h0], error_bind]
    exact Or.inr (Or.inr rfl)
  rw [show sampleCount a4 n = Except.ok (fdiv64 (a4 : ℚ) ((2 * n : ℕ) : ℚ)) by
    unfold sampleCount; rw [if_neg h0, pure_eq_ok], ok_bind]
  rcases readU32_cases buf 12 with ⟨a5, h5⟩ | h5
  swap
  · rw [h5, error_bind]; exact Or.inr (Or.inl rfl)
  rw [h5, ok_bind]
  rcases readU16_cases buf 16 with ⟨a6, h6⟩ | h6
  swap
  · rw [h6, error_bind]; exact Or.inr (Or.inl rfl)
  rw [h6, ok_bind]
  rcases readF64_cases buf 28 with ⟨a7, h7⟩ | h7
  swap
  · rw [h7, error_bind]; exact Or.inr (Or.inl rfl)
  rw [h7, ok_bind]
  rcases readI32_cases buf 36 with ⟨a8, h8⟩ | h8
  swap
  · rw [h8, error_bind]; exact Or.inr (Or.inl rfl)
  rw [h8, ok_bind]
  rcases readI32_cases buf 40 with ⟨a9, h9⟩ | h9
  swap
  · rw [h9, error_bind]; exact Or.inr (Or.inl rfl)
  rw [h9, ok_bind]
  rcases readU16_cases buf 100 with ⟨a10, h10⟩ | h10
  swap
  · rw [h10, error_bind]; exact Or.inr (Or.inl rfl)
  rw [h10, ok_bind]
  exact Or.inl ⟨_, rfl⟩

theorem decode_ok_elim {buf : List Nat} {tz : Int} {rec : Recording}
    (h : decode buf tz = Except.ok rec) :
    ∃ hd chans annoB np,
      decodeHeader buf = Except.ok hd ∧
      readChannels buf hd.hChannels hd.hChannelSize hd.packed hd.nChannels =
        Except.ok chans ∧
      readAnnots buf (hd.headSize + hd.dataSize + hd.trailerSize) hd.annoSize =
        Except.ok annoB ∧
      mkNpdata buf hd.headSize (fmul64 hd.nSample (hd.nChannels : ℚ)).floor.toNat =
        Except.ok np ∧
      rec = { nChannels := hd.nChannels, hChannels := hd.hChannels,
              hChannelSize := hd.hChannelSize, headSize := hd.headSize,
              dataSize := hd.dataSize, nSample := hd.nSample,
              trailerSize := hd.trailerSize, annoSize := hd.annoSize,
              timeStep := hd.timeStep, fileCreatedRaw := hd.e14,
              fileCreated := hd.e14 + tz, fileWritten := hd.e15 + tz,
              packed := hd.packed, hiRes := hd.hiRes, chans := chans,
              annots := annoB.splitOn 0, npdata := np } := by
  unfold decode at h
  obtain ⟨hd, hhd, h⟩ := bind_eq_ok h
  obtain ⟨chans, hchans, h⟩ := bind_eq_ok h
  obtain ⟨annoB, hanno, h⟩ := bind_eq_ok h
  obtain ⟨np, hnp, h⟩ := bind_eq_ok h
  rw [pure_eq_ok] at h
  exact ⟨hd, chans, annoB, np, hhd, hchans, hanno, hnp, (Except.ok.inj h).symm⟩

theorem decode_err_of_header_err {buf : List Nat} {tz : Int} {e : DecodeError}
    (h : decodeHeader buf = Except.error e) : decode buf tz = Except.error e := by
  unfold decode
  rw [h, error_bind]

/-- The eight byte-level reads that produced one channel entry `ch` for
channel index `c`: the source's cumulative offsets relative to
`channelOffset = hChannels + hChannelSize * c`. -/
def ChanFieldsAt (buf : List Nat) (hCh hSz packed : Nat) (c : Nat) (ch : Chan) : Prop :=
  readF32 buf ((hCh : Int) + hSz * c) = Except.ok ch.scalingSlope ∧
  readF32 buf ((hCh : Int) + hSz * c + 4) = Except.ok ch.scalingIntercept ∧
  readF64 buf ((hCh : Int) + hSz * c + 4 + 4) = Except.ok ch.calScaling ∧
  readF64 buf ((hCh : Int) + hSz * c + 4 + 4 + 8) = Except.ok ch.calIntercept ∧
  readBytesAt buf ((hCh : Int) + hSz * c + 4 + 4 + 8 + 8) 6 = Except.ok ch.engUnits ∧
  readDivisor buf packed ((hCh : Int) + hSz * c + 4 + 4 + 8 + 8 + 6 + 1) =
    Except.ok ch.sampleRateDivisor ∧
  readU8 buf ((hCh : Int) + hSz * c + 4 + 4 + 8 + 8 + 6 + 1 + 1) = Except.ok ch.phyChannel

theorem readChansGo_ok_elim (buf : List Nat) (hCh hSz packed : Nat) :
    ∀ (rem i : Nat) (l : List Chan),
      readChansGo buf hCh hSz packed i rem = Except.ok l →
      l.length = rem ∧
        ∀ j ch, l.get? j = some ch → ChanFieldsAt buf hCh hSz packed (i + j) ch := by
  intro rem
  induction rem with
  | zero =>
    intro i l h
    simp only [readChansGo] at h
    have hl : l = [] := (Except.ok.inj h).symm
    subst hl
    refine ⟨rfl, ?_⟩
    intro j ch hj
    simp at hj
  | succ rem ih =>
    intro i l h
    simp only [readChansGo] at h
    obtain ⟨v1, h1, h⟩ := bind_eq_ok h
    obtain ⟨v2, h2, h⟩ := bind_eq_ok h
    obtain ⟨v3, h3, h⟩ := bind_eq_ok h
    obtain ⟨v4, h4, h⟩ := bind_eq_ok h
    obtain ⟨v5, h5, h⟩ := bind_eq_ok h
    obtain ⟨v6, h6, h⟩ := bind_eq_ok h
    obtain ⟨v7, h7, h⟩ := bind_eq_ok h
    obtain ⟨rest, hrest, h⟩ := bind_eq_ok h
    rw [pure_eq_ok] at h
    have hl : l = { scalingSlope := v1, scalingIntercept := v2, calScaling := v3,
                    calIntercept := v4, engUnits := v5, sampleRateDivisor := v6,
                    phyChannel := v7 } :: rest := (Except.ok.inj h).symm
    subst hl
    obtain ⟨hlen, hfields⟩ := ih (i + 1) rest hrest
    refine ⟨by simp [hlen], ?_⟩
    intro j ch hj
    cases j with
    | zero =>
      have hch : ch = { scalingSlope := v1, scalingIntercept := v2, calScaling := v3,
                        calIntercept := v4, engUnits := v5, sampleRateDivisor := v6,
                        phyChannel := v7 } := by
        simp only [List.get?] at hj
        exact (Option.some.inj hj).symm
      subst hch
      exact ⟨h1, h2, h3, h4, h5, h6, h7⟩
    | succ j' =>
      have := hfields j' ch (by simpa using hj)
      rw [show i + (j' + 1) = (i + 1) + j' by omega]
      exact this

theorem readChannels_ok_elim {buf : List Nat} {hCh hSz packed n : Nat} {l : List Chan}
    (h : readChannels buf hCh hSz packed n = Except.ok l) :
    l.length = n ∧ ∀ j ch, l.get? j = some ch → ChanFieldsAt buf hCh hSz packed j ch := by
  obtain ⟨hlen, hfields⟩ := readChansGo_ok_elim buf hCh hSz packed n 0 l h
  refine ⟨hlen, ?_⟩
  intro j ch hj
  have := hfields j ch hj
  simpa using this

theorem annoGo_ok_all_lt (buf : List Nat) (aOff : Int) :
    ∀ (rem i : Nat) (bs : List Nat), annoGo buf aOff i rem = Except.ok bs →
      ∀ b ∈ bs, b < 128 := by
  intro rem
  induction rem with
  | zero =>
    intro i bs h b hb
    simp only [annoGo] at h
    have : bs = [] := (Except.ok.inj h).symm
    subst this
    simp at hb
  | succ rem ih =>
    intro i bs h b hb
    simp only [annoGo] at h
    obtain ⟨b0, hb0, h⟩ := bind_eq_ok h
    by_cases hc : 128 ≤ b0
    · rw [if_pos hc] at h
      exact Except.noConfusion h
    · rw [if_neg hc] at h
      obtain ⟨rest, hrest, h⟩ := bind_eq_ok h
      rw [pure_eq_ok] at h
      have : bs = b0 :: rest := (Except.ok.inj h).symm
      subst this
      rcases List.mem_cons.mp hb with hb | hb
      · omega
      · exact ih (i + 1) rest hrest b hb

theorem readU8_at_nat (buf : List Nat) (k : Nat) (hk : k < buf.length) :
    readU8 buf (k : Int) = Except.ok (buf.getD k 0 % 256) := by
  unfold readU8 readBytesAt
  rw [structOff_ofNat]
  rw [if_pos (by constructor <;> omega)]
  rw [ok_bind, pure_eq_ok]
  congr 1
  rw [Int.toNat_ofNat]
  rw [List.drop_eq_getElem_cons hk]
  simp [List.getD, List.getElem?_eq_getElem hk]

theorem isOk_bind_pure {ε α β : Type} (x : Except ε α) (f : α → β) :
    ((x >>= fun r => pure (f r)).isOk) = x.isOk := by
  cases x <;> rfl

theorem annoGo_isOk_iff (buf : List Nat) (aOff : Int) (h0 : 0 ≤ aOff) :
    ∀ (rem i : Nat), aOff.toNat + i + rem ≤ buf.length →
      ((annoGo buf aOff i rem).isOk = true ↔
        ∀ j, j < rem → buf.getD (aOff.toNat + i + j) 0 % 256 < 128) := by
  intro rem
  induction rem with
  | zero =>
    intro i _
    constructor
    · intro _ j hj
      omega
    · intro _
      rfl
  | succ rem ih =>
    intro i hle
    have hk : aOff.toNat + i < buf.length := by omega
    have hread : readU8 buf (aOff + i) = Except.ok (buf.getD (aOff.toNat + i) 0 % 256) := by
      have e : (aOff + i : Int) = ((aOff.toNat + i : Nat) : Int) := by omega
      rw [e]
      exact readU8_at_nat buf _ hk
    simp only [annoGo, hread, ok_bind]
    by_cases hb : 128 ≤ buf.getD (aOff.toNat + i) 0 % 256
    · rw [if_pos hb]
      constructor
      · intro hc
        simp [Except.isOk, Except.toBool] at hc
      · intro hall
        have := hall 0 (by omega)
        rw [Nat.add_zero] at this
        omega
    · rw [if_neg hb]
      rw [isOk_bind_pure]
      rw [ih (i + 1) (by omega)]
      constructor
      · intro hall j hj
        cases j with
        | zero => rw [Nat.add_zero]; omega
        | succ j' =>
          have := hall j' (by omega)
          rw [show aOff.toNat + i + (j' + 1) = aOff.toNat + (i + 1) + j' by omega]
          exact this
      · intro hall j hj
        have := hall (j + 1) (by omega)
        rw [show aOff.toNat + (i + 1) + j = aOff.toNat + i + (j + 1) by omega]
        exact this

theorem mkNpdata_ok_elim {buf : List Nat} {hs : Int} {cnt : Nat} {np : List Int}
    (h : mkNpdata buf hs cnt = Except.ok np) :
    0 ≤ hs ∧ hs.toNat + 2 * cnt ≤ buf.length ∧ np = readI16s buf hs.toNat cnt := by
  unfold mkNpdata at h
  split at h
  · exact Except.noConfusion h
  · split at h
    · exact Except.noConfusion h
    · next h1 h2 => exact ⟨by omega, by omega, (Except.ok.inj h).symm⟩

theorem readI16s_length (buf : List Nat) (base cnt : Nat) :
    (readI16s buf base cnt).length = cnt := by
  simp [readI16s]

theorem pyIndex_ofNat {α : Type} (l : List α) (j : Nat) (h : j < l.length) :
    pyIndex l (j : Int) = Except.ok (l.get ⟨j, h⟩) := by
  unfold pyIndex pyIdxOf pyIndexAt
  rw [if_neg (by omega)]
  rw [dif_pos (by constructor <;> omega)]
  rfl

theorem pyIndex_ofNat_err {α : Type} (l : List α) (j : Nat) (h : l.length ≤ j) :
    pyIndex l (j : Int) = Except.error DecodeError.indexError := by
  unfold pyIndex pyIdxOf pyIndexAt
  rw [if_neg (by omega)]
  rw [dif_neg (by omega)]

theorem pyIdxOf_neg_one (len : Nat) : pyIdxOf len (-1 : Int) = pyIdxOf len ((len : Int) - 1) := by
  unfold pyIdxOf
  by_cases h : len = 0
  · rw [if_pos (by omega), if_pos (by omega)]
    omega
  · rw [if_pos (by omega), if_neg (by omega)]
    omega

theorem pyIndex_neg_one_eq {α : Type} (l : List α) :
    pyIndex l (-1 : Int) = pyIndex l ((l.length : Int) - 1) := by
  unfold pyIndex
  rw [pyIdxOf_neg_one]

theorem filterMap_get?_of_lt {α : Type} (l : List α) :
    ∀ (idxs : List Nat), (∀ i ∈ idxs, i < l.length) →
      ∀ k, (idxs.filterMap fun i => l.get? i).get? k = (idxs.get? k).bind fun i => l.get? i := by
  intro idxs
  induction idxs with
  | nil =>
    intro _ k
    simp
  | cons i is ih =>
    intro hall k
    have hi : i < l.length := hall i (by simp)
    have hsome : l.get? i = some (l.get ⟨i, hi⟩) := List.get?_eq_get hi
    rw [List.filterMap_cons, hsome]
    cases k with
    | zero => simp [hsome]
    | succ k' =>
      simp only [List.get?]
      exact ih (fun x hx => hall x (by simp [hx])) k'

theorem pySliceStart_le (len : Nat) (start : Int) : pySliceStart len start ≤ len := by
  unfold pySliceStart
  split <;> omega

theorem pySliceIdx_mem_lt {len : Nat} {start : Int} {step : Nat} (hs : 0 < step) :
    ∀ i ∈ pySliceIdx len start step, i < len := by
  intro i hi
  unfold pySliceIdx at hi
  rw [List.mem_range'] at hi
  obtain ⟨m, hm, rfl⟩ := hi
  have hsle : pySliceStart len start ≤ len := pySliceStart_le len start
  have hdiv := (Nat.le_div_iff_mul_le hs).mp
    (by omega : m + 1 ≤ (len - pySliceStart len start + step - 1) / step)
  have hmul : (m + 1) * step = step * m + step := by ring
  omega

theorem pySliceStart_ofNat (len s : Nat) : pySliceStart len (s : Int) = min s len := by
  unfold pySliceStart
  rw [if_neg (by omega)]
  congr 1

theorem pySliceIdx_get? (len : Nat) (s step : Nat) (hs : 0 < step) (k : Nat) :
    (pySliceIdx len (s : Int) step).get? k =
      if s + step * k < len then some (s + step * k) else none := by
  unfold pySliceIdx
  rw [pySliceStart_ofNat]
  have hmul : (k + 1) * step = step * k + step := by ring
  rcases Nat.le_total s len with hsl | hsl
  · rw [Nat.min_eq_left hsl]
    by_cases hk : k < (len - s + step - 1) / step
    · rw [List.get?_eq_getElem?, List.getElem?_range' _ _ hk]
      have hdiv := (Nat.le_div_iff_mul_le hs).mp
        (by omega : k + 1 ≤ (len - s + step - 1) / step)
      rw [if_pos (by omega)]
    · rw [List.get?_eq_getElem?, List.getElem?_eq_none
        (by simpa using by omega :
          (List.range' s ((len - s + step - 1) / step) step).length ≤ k)]
      have hnot : ¬(k + 1 ≤ (len - s + step - 1) / step) := by omega
      rw [Nat.le_div_iff_mul_le hs] at hnot
      rw [if_neg (by omega)]
  · rw [Nat.min_eq_right hsl]
    have hz : (len - len + step - 1) / step = 0 := by
      rw [Nat.div_eq_of_lt (by omega)]
    rw [hz]
    simp only [List.range'_zero, List.get?_nil]
    rw [if_neg (by omega)]

theorem pySlice_ofNat {α : Type} (l : List α) (s step : Nat) (hs : step ≠ 0) :
    pySlice l (s : Int) step =
      Except.ok ((pySliceIdx l.length (s : Int) step).filterMap fun i => l.get? i) := by
  unfold pySlice
  rw [if_neg hs]

theorem pySlice_ok_get? {α : Type} (l : List α) (s step k : Nat) (hs : step ≠ 0) :
    ((pySliceIdx l.length (s : Int) step).filterMap fun i => l.get? i).get? k =
      l.get? (s + step * k) := by
  have hpos : 0 < step := Nat.pos_of_ne_zero hs
  rw [filterMap_get?_of_lt l _ (pySliceIdx_mem_lt hpos) k]
  rw [pySliceIdx_get? l.length s step hpos k]
  by_cases hlt : s + step * k < l.length
  · rw [if_pos hlt]
    rfl
  · rw [if_neg hlt]
    rw [Option.none_bind, List.get?_eq_getElem?, List.getElem?_eq_none (by omega)]

theorem splitOn_ne_nil (bs : List Nat) : bs.splitOn 0 ≠ [] := by
  unfold List.splitOn
  exact List.splitOnP_ne_nil _ bs

theorem decode_ok_basic {buf : List Nat} {tz : Int} {rec : Recording}
    (h : decode buf tz = Except.ok rec) :
    0 < rec.nChannels ∧ rec.chans.length = rec.nChannels ∧ rec.annots ≠ [] ∧
      rec.npdata.length = npCount rec.dataSize rec.nChannels := by
  obtain ⟨hd, chans, annoB, np, hhd, hchans, hanno, hnp, hrec⟩ := decode_ok_elim h
  obtain ⟨n, hCh, hSz, hdSz, dSz, trl, ann, ts, e14, e15, flags, hn, h0,
    _, _, _, _, _, _, _, _, _, _, hdEq⟩ := decodeHeader_ok_elim hhd
  obtain ⟨hlen, _⟩ := readChannels_ok_elim hchans
  obtain ⟨_, _, hnpEq⟩ := mkNpdata_ok_elim hnp
  have hnval : hd.nChannels = n := by rw [hdEq]
  have hcount : (fmul64 hd.nSample (hd.nChannels : ℚ)).floor.toNat =
      npCount hd.dataSize hd.nChannels := by
    rw [hdEq]
    rfl
  have hpos : 0 < hd.nChannels := by rw [hnval]; omega
  subst hrec
  refine ⟨hpos, hlen, by simpa using splitOn_ne_nil annoB, ?_⟩
  have hlen2 : np.length = (fmul64 hd.nSample (hd.nChannels : ℚ)).floor.toNat := by
    rw [hnpEq, readI16s_length]
  exact hlen2.trans hcount

theorem bind_eq_error {ε α β : Type} {x : Except ε α} {f : α → Except ε β} {e : ε}
    (h : (x >>= f) = Except.error e) :
    x = Except.error e ∨ ∃ a, x = Except.ok a ∧ f a = Except.error e := by
  cases x with
  | ok a => exact Or.inr ⟨a, rfl, h⟩
  | error e' =>
    rw [error_bind] at h
    exact Or.inl (by rw [Except.error.inj h])

theorem not_malformed {α : Type} {x : Except DecodeError α}
    (hc : (∃ a, x = Except.ok a) ∨ x = Except.error DecodeError.structError)
    (h : x = Except.error DecodeError.malformedDataSize) : False := by
  rcases hc with ⟨a, rfl⟩ | rfl
  · exact Except.noConfusion h
  · exact DecodeError.noConfusion (Except.error.inj h)

theorem readF32_cases (buf : List Nat) (off : Int) :
    (∃ v, readF32 buf off = Except.ok v) ∨
      readF32 buf off = Except.error DecodeError.structError := by
  unfold readF32
  rcases readBytesAt_cases buf off 4 with ⟨bs, h⟩ | h <;> rw [h]
  · exact Or.inl ⟨_, rfl⟩
  · exact Or.inr rfl

theorem readDivisor_cases (buf : List Nat) (packed : Nat) (off : Int) :
    (∃ v, readDivisor buf packed off = Except.ok v) ∨
      readDivisor buf packed off = Except.error DecodeError.structError := by
  unfold readDivisor
  split
  · exact readU8_cases buf off
  · exact Or.inl ⟨1, rfl⟩

theorem readChansGo_ne_malformed (buf : List Nat) (hCh hSz packed : Nat) :
    ∀ (rem i : Nat),
      readChansGo buf hCh hSz packed i rem ≠
        Except.error DecodeError.malformedDataSize := by
  intro rem
  induction rem with
  | zero =>
    intro i h
    simp only [readChansGo] at h
    exact Except.noConfusion h
  | succ rem ih =>
    intro i h
    simp only [readChansGo] at h
    rcases bind_eq_error h with h | ⟨v1, _, h⟩
    · exact not_malformed (readF32_cases _ _) h
    rcases bind_eq_error h with h | ⟨v2, _, h⟩
    · exact not_malformed (readF32_cases _ _) h
    rcases bind_eq_error h with h | ⟨v3, _, h⟩
    · exact not_malformed (readF64_cases _ _) h
    rcases bind_eq_error h with h | ⟨v4, _, h⟩
    · exact not_malformed (readF64_cases _ _) h
    rcases bind_eq_error h with h | ⟨v5, _, h⟩
    · exact not_malformed (readBytesAt_cases _ _ _) h
    rcases bind_eq_error h with h | ⟨v6, _, h⟩
    · exact not_malformed (readDivisor_cases _ _ _) h
    rcases bind_eq_error h with h | ⟨v7, _, h⟩
    · exact not_malformed (readU8_cases _ _) h
    rcases bind_eq_error h with h | ⟨rest, _, h⟩
    · exact ih (i + 1) h
    exact Except.noConfusion h

theorem annoGo_ne_malformed (buf : List Nat) (aOff : Int) :
    ∀ (rem i : Nat),
      annoGo buf aOff i rem ≠ Except.error DecodeError.malformedDataSize := by
  intro rem
  induction rem with
  | zero =>
    intro i h
    simp only [annoGo] at h
    exact Except.noConfusion h
  | succ rem ih =>
    intro i h
    simp only [annoGo] at h
    rcases bind_eq_error h with h | ⟨b, _, h⟩
    · exact not_malformed (readU8_cases _ _) h
    by_cases hb : 128 ≤ b
    · rw [if_pos hb] at h
      exact DecodeError.noConfusion (Except.error.inj h)
    · rw [if_neg hb] at h
      rcases bind_eq_error h with h | ⟨rest, _, h⟩
      · exact ih (i + 1) h
      exact Except.noConfusion h

theorem mkNpdata_ne_malformed (buf : List Nat) (hs : Int) (cnt : Nat) :
    mkNpdata buf hs cnt ≠ Except.error DecodeError.malformedDataSize := by
  intro h
  unfold mkNpdata at h
  split at h
  · exact DecodeError.noConfusion (Except.error.inj h)
  · split at h
    · exact DecodeError.noConfusion (Except.error.inj h)
    · exact Except.noConfusion h

theorem decode_ne_malformed (buf : List Nat) (tz : Int) :
    decode buf tz ≠ Except.error DecodeError.malformedDataSize := by
  intro h
  unfold decode at h
  rcases bind_eq_error h with h | ⟨hd, _, h⟩
  · rcases decodeHeader_cases buf with ⟨hd', hok⟩ | he | he
    · rw [hok] at h
      exact Except.noConfusion h
    · rw [he] at h
      exact DecodeError.noConfusion (Except.error.inj h)
    · rw [he] at h
      exact DecodeError.noConfusion (Except.error.inj h)
  rcases bind_eq_error h with h | ⟨chans, _, h⟩
  · exact readChansGo_ne_malformed buf _ _ _ _ 0 h
  rcases bind_eq_error h with h | ⟨annoB, _, h⟩
  · exact annoGo_ne_malformed buf _ _ 0 h
  rcases bind_eq_error h with h | ⟨np, _, h⟩
  · exact mkNpdata_ne_malformed buf _ _ h
  exact Except.noConfusion h

set_option maxRecDepth 1000000

/-- C4: for every buffer that decodes, if the 16-bit little-endian field
at offset 2 is at least 144 the channel count is the full byte at offset
0, otherwise that byte masked with `0x1F`; concretely, version 143 with
raw byte 37 yields channel count 5, and version 144 with raw byte 37
yields 37. -/
theorem claim4_channel_count (buf : List Nat) (tz : Int) (rec : Recording)
    (h : decode buf tz = Except.ok rec) :
    (∃ v b0, readU16 buf 2 = Except.ok v ∧ readU8 buf 0 = Except.ok b0 ∧
      rec.nChannels = if 144 ≤ v then b0 else b0 &&& 31) ∧
    (readU16 bufV143 2 = Except.ok 143 ∧ readU8 bufV143 0 = Except.ok 37 ∧
      (decode bufV143 0).isOk = true ∧ (getRec bufV143 0).nChannels = 5) ∧
    (readU16 bufV144 2 = Except.ok 144 ∧ readU8 bufV144 0 = Except.ok 37 ∧
      (decode bufV144 0).isOk = true ∧ (getRec bufV144 0).nChannels = 37) := by
  refine ⟨?_, by decide!, by decide!⟩
  obtain ⟨hd, chans, annoB, np, hhd, _, _, _, hrec⟩ := decode_ok_elim h
  obtain ⟨n, hCh, hSz, hdSz, dSz, trl, ann, ts, e14, e15, flags, hn, h0,
    _, _, _, _, _, _, _, _, _, _, hdEq⟩ := decodeHeader_ok_elim hhd
  obtain ⟨v, b0, hv, hb0, hnv⟩ := channelCountOf_ok_elim hn
  refine ⟨v, b0, hv, hb0, ?_⟩
  subst hrec
  show hd.nChannels = _
  rw [hdEq]
  exact hnv

/-- C4 witness: the theorem applied to the concrete buffer `bufOK`. -/
theorem claim4_witness :
    decode bufOK 0 = Except.ok (getRec bufOK 0) ∧
    ((∃ v b0, readU16 bufOK 2 = Except.ok v ∧ readU8 bufOK 0 = Except.ok b0 ∧
        (getRec bufOK 0).nChannels = if 144 ≤ v then b0 else b0 &&& 31) ∧
      (readU16 bufV143 2 = Except.ok 143 ∧ readU8 bufV143 0 = Except.ok 37 ∧
        (decode bufV143 0).isOk = true ∧ (getRec bufV143 0).nChannels = 5) ∧
      (readU16 bufV144 2 = Except.ok 144 ∧ readU8 bufV144 0 = Except.ok 37 ∧
        (decode bufV144 0).isOk = true ∧ (getRec bufV144 0).nChannels = 37)) :=
  ⟨by decide!, claim4_channel_count bufOK 0 (getRec bufOK 0) (by decide!)⟩

/-- C7 counterexample: a buffer whose derived channel count is 0 makes
decode fail with a division-by-zero error, not with a typed
`InvalidChannelCount`. -/
theorem claim7_counterexample :
    channelCountOf bufZeroCh = Except.ok 0 ∧
    decode bufZeroCh 0 = Except.error DecodeError.zeroDivisionError ∧
    decode bufZeroCh 0 ≠ Except.error DecodeError.invalidChannelCount := by
  decide!

/-- C7 amended: for every buffer whose derived channel count is 0,
decode fails — with the division-by-zero error from the
samples-per-channel computation, or with a struct unpack error if one of
the four intervening header reads already ran out of buffer — never with
a typed `InvalidChannelCount`, which the code does not have. -/
theorem claim7_zero_channels (buf : List Nat) (tz : Int)
    (h : channelCountOf buf = Except.ok 0) :
    decode buf tz = Except.error DecodeError.zeroDivisionError ∨
      decode buf tz = Except.error DecodeError.structError := by
  have hh : decodeHeader buf = Except.error DecodeError.zeroDivisionError ∨
      decodeHeader buf = Except.error DecodeError.structError := by
    unfold decodeHeader
    rw [h, ok_bind]
    rcases readU8_cases buf 4 with ⟨a1, h1⟩ | h1
    swap
    · rw [h1, error_bind]; exact Or.inr rfl
    rw [h1, ok_bind]
    rcases readU8_cases buf 5 with ⟨a2, h2⟩ | h2
    swap
    · rw [h2, error_bind]; exact Or.inr rfl
    rw [h2, ok_bind]
    rcases readI16_cases buf 6 with ⟨a3, h3⟩ | h3
    swap
    · rw [h3, error_bind]; exact Or.inr rfl
    rw [h3, ok_bind]
    rcases readU32_cases buf 8 with ⟨a4, h4⟩ | h4
    swap
    · rw [h4, error_bind]; exact Or.inr rfl
    rw [h4, ok_bind]
    rw [show sampleCount a4 0 = Except.error DecodeError.zeroDivisionError from rfl,
      error_bind]
    exact Or.inl rfl
  rcases hh with h' | h'
  · exact Or.inl (decode_err_of_header_err h')
  · exact Or.inr (decode_err_of_header_err h')

/-- C7 witness: the amended theorem applied to `bufZeroCh`. -/
theorem claim7_witness :
    channelCountOf bufZeroCh = Except.ok 0 ∧
      (decode bufZeroCh 0 = Except.error DecodeError.zeroDivisionError ∨
        decode bufZeroCh 0 = Except.error DecodeError.structError) :=
  ⟨by decide!, claim7_zero_channels bufZeroCh 0 (by decide!)⟩

/-- C6 counterexample: a 103-byte buffer — shorter than the claimed
104-byte minimum — on which decode succeeds (and in particular does not
fail with `TooShort`). -/
theorem claim6_counterexample :
    buf103.length = 103 ∧ (decode buf103 0).isOk = true ∧
      decode buf103 0 ≠ Except.error DecodeError.tooShort := by
  decide!

/-- C6 amended: every buffer shorter than 102 bytes (the last header
field is the 2-byte flag word at offset 100) fails during header
decoding, before any channel descriptor is read, with a struct unpack
error — or a division-by-zero error when the derived channel count is 0
— never with a typed `TooShort`; buffers of 102 or 103 bytes can decode
successfully. -/
theorem claim6_short_buffer (buf : List Nat) (tz : Int) (h : buf.length < 102) :
    (decodeHeader buf).isOk = false ∧
      (decode buf tz = Except.error DecodeError.structError ∨
        decode buf tz = Except.error DecodeError.zeroDivisionError) := by
  have hh : decodeHeader buf = Except.error DecodeError.structError ∨
      decodeHeader buf = Except.error DecodeError.zeroDivisionError := by
    rcases decodeHeader_cases buf with ⟨hd, hok⟩ | herr | herr
    · obtain ⟨n, hCh, hSz, hdSz, dSz, trl, ann, ts, e14, e15, flags, _, _,
        _, _, _, _, _, _, _, _, _, hflags, _⟩ := decodeHeader_ok_elim hok
      have := readU16_ok_len (k := 100) hflags
      omega
    · exact Or.inl herr
    · exact Or.inr herr
  rcases hh with h' | h'
  · rw [h']
    exact ⟨rfl, Or.inl (decode_err_of_header_err h')⟩
  · rw [h']
    exact ⟨rfl, Or.inr (decode_err_of_header_err h')⟩

/-- C6 witness: the amended theorem applied to the empty buffer. -/
theorem claim6_witness :
    ([] : List Nat).length < 102 ∧
      ((decodeHeader ([] : List Nat)).isOk = false ∧
        (decode ([] : List Nat) 0 = Except.error DecodeError.structError ∨
          decode ([] : List Nat) 0 = Except.error DecodeError.zeroDivisionError)) :=
  ⟨by decide!, claim6_short_buffer [] 0 (by decide!)⟩

/-- C2 counterexample: a buffer whose `data_size` (3) is not a multiple
of `2 * channel_count` (2) still decodes successfully — silently
dropping the dangling byte (one sample survives) — instead of failing
with `MalformedDataSize`. -/
theorem claim2_counterexample :
    (getRec bufOdd 0).dataSize % (2 * (getRec bufOdd 0).nChannels) ≠ 0 ∧
    decode bufOdd 0 = Except.ok (getRec bufOdd 0) ∧
    decode bufOdd 0 ≠ Except.error DecodeError.malformedDataSize ∧
    (getRec bufOdd 0).dataSize = 3 ∧ (getRec bufOdd 0).npdata = [7] := by
  decide!

/-- C2 amended: decode performs no divisibility check and has no
`MalformedDataSize` error: (1) whenever decode succeeds, the sample view
holds `int(float(data_size/(2*channel_count)) * channel_count)` 16-bit
samples — the fractional part of the per-channel sample count is
silently truncated; (2) decode never fails with `MalformedDataSize`, on
any buffer whatsoever; (3) concretely, data size 3 with one channel
yields 1 sample (the dangling odd byte is dropped), and the double
binary64 rounding can even lose a whole sample against
`data_size / 2`: seven channels with data size 1048564 yield 524281
samples, one fewer than `1048564 / 2 = 524282`. -/
theorem claim2_no_divisibility_check :
    (∀ (buf : List Nat) (tz : Int) (rec : Recording),
      decode buf tz = Except.ok rec →
      rec.npdata.length = npCount rec.dataSize rec.nChannels) ∧
    (∀ (buf : List Nat) (tz : Int),
      decode buf tz ≠ Except.error DecodeError.malformedDataSize) ∧
    npCount 3 1 = 1 ∧ npCount 1048564 7 = 524281 ∧ 1048564 / 2 = 524282 := by
  refine ⟨?_, ?_, by decide!, by decide!, by decide!⟩
  · intro buf tz rec h
    exact (decode_ok_basic h).2.2.2
  · intro buf tz
    exact decode_ne_malformed buf tz

/-- C2 witness: the amended theorem applied to `bufOdd` (data size 3,
one channel, one surviving sample). -/
theorem claim2_witness :
    decode bufOdd 0 = Except.ok (getRec bufOdd 0) ∧
      (getRec bufOdd 0).npdata.length =
        npCount (getRec bufOdd 0).dataSize (getRec bufOdd 0).nChannels ∧
      decode bufOdd 0 ≠ Except.error DecodeError.malformedDataSize :=
  ⟨by decide!,
    claim2_no_divisibility_check.1 bufOdd 0 (getRec bufOdd 0) (by decide!),
    claim2_no_divisibility_check.2.1 bufOdd 0⟩

/-- C9 counterexample: decoding the same buffer under two different
environment timezone offsets yields different `Recording`s — the
formatted `fileCreated` fields differ — while the `utcfromtimestamp`
field `fileCreatedRaw` agrees, so decode is not a pure function of the
buffer alone. -/
theorem claim9_counterexample :
    getRec bufOK 0 ≠ getRec bufOK 3600 ∧
    (getRec bufOK 0).fileCreated ≠ (getRec bufOK 3600).fileCreated ∧
    (getRec bufOK 0).fileCreatedRaw = (getRec bufOK 3600).fileCreatedRaw := by
  decide!

/-- C9 amended: decode is deterministic in the buffer and the
environment timezone, and the timezone influences nothing but the two
`fromtimestamp`-formatted fields `fileCreated` and `fileWritten`: after
erasing those two fields, decoding under any two timezone offsets gives
identical results (in particular the whole sample block, channel table,
annotations and `fileCreatedRaw` depend only on the buffer). -/
theorem claim9_tz_only_affects_local_times (buf : List Nat) (tz1 tz2 : Int) :
    Except.map eraseLocalTimes (decode buf tz1) =
      Except.map eraseLocalTimes (decode buf tz2) := by
  unfold decode
  cases hh : decodeHeader buf with
  | error e => rw [error_bind, error_bind]
  | ok hd =>
    rw [ok_bind, ok_bind]
    cases hc : readChannels buf hd.hChannels hd.hChannelSize hd.packed hd.nChannels with
    | error e => rw [error_bind, error_bind]
    | ok chans =>
      rw [ok_bind, ok_bind]
      cases ha : readAnnots buf (hd.headSize + hd.dataSize + hd.trailerSize) hd.annoSize with
      | error e => rw [error_bind, error_bind]
      | ok annoB =>
        rw [ok_bind, ok_bind]
        cases hn : mkNpdata buf hd.headSize (fmul64 hd.nSample (hd.nChannels : ℚ)).floor.toNat with
        | error e => rw [error_bind, error_bind]
        | ok np => rfl

/-- The channel table decoded from `buf` (or `[]` when any stage fails);
convenience accessor for stating concrete facts. -/
def getChans (buf : List Nat) : List Chan :=
  (readChannels buf (getHdr buf).hChannels (getHdr buf).hChannelSize
    (getHdr buf).packed (getHdr buf).nChannels).toOption.getD []

/-- C5 counterexample: a buffer that is fully well-formed except that its
annotation region starts with byte 195 (0xC3): the whole decode aborts
with the Unicode decode error instead of succeeding with an empty
annotation. -/
theorem claim5_counterexample :
    decode bufBadAnno 0 = Except.error DecodeError.unicodeDecodeError ∧
    (decode bufBadAnno 0).isOk = false ∧
    (decode (bufBase 4 [65, 0, 66, 0]) 0).isOk = true := by
  decide!

/-- C5 amended: annotation decode failure is not recoverable: when the
header and channel table decode but reading or UTF-8-decoding the
annotation region fails with some error, the whole decode returns that
error — no empty annotation is substituted and no `Recording` is
produced. -/
theorem claim5_anno_failure_aborts (buf : List Nat) (tz : Int) (hd : Header)
    (chans : List Chan) (e : DecodeError)
    (hhd : decodeHeader buf = Except.ok hd)
    (hch : readChannels buf hd.hChannels hd.hChannelSize hd.packed hd.nChannels =
      Except.ok chans)
    (ha : readAnnots buf (hd.headSize + hd.dataSize + hd.trailerSize) hd.annoSize =
      Except.error e) :
    decode buf tz = Except.error e := by
  unfold decode
  rw [hhd, ok_bind, hch, ok_bind, ha, error_bind]

/-- C5 witness: the amended theorem applied to `bufBadAnno`. -/
theorem claim5_witness :
    readAnnots bufBadAnno
        ((getHdr bufBadAnno).headSize + (getHdr bufBadAnno).dataSize +
          (getHdr bufBadAnno).trailerSize) (getHdr bufBadAnno).annoSize =
      Except.error DecodeError.unicodeDecodeError ∧
    decode bufBadAnno 0 = Except.error DecodeError.unicodeDecodeError :=
  ⟨by decide!,
    claim5_anno_failure_aborts bufBadAnno 0 (getHdr bufBadAnno) (getChans bufBadAnno)
      DecodeError.unicodeDecodeError (by decide!) (by decide!) (by decide!)⟩

/-- C10: the annotation region is decoded one byte at a time, each byte
independently as UTF-8, so (1) for an in-range region the annotation
stage succeeds exactly when every byte is below 0x80; (2) whenever the
whole decode succeeds, the annotation bytes it consumed are all below
0x80 (and the stored annotations are their split); (3) even the two
bytes 0xC3 0xA9 — a single valid two-byte UTF-8 character — make the
annotation stage (and hence the decode that reaches it) fail. -/
theorem claim10_byte_wise_utf8 :
    (∀ (buf : List Nat) (aOff : Int) (size : Nat), 0 ≤ aOff →
      aOff.toNat + size ≤ buf.length →
      ((readAnnots buf aOff size).isOk = true ↔
        ∀ j, j < size → buf.getD (aOff.toNat + j) 0 % 256 < 128)) ∧
    (∀ (buf : List Nat) (tz : Int) (rec : Recording),
      decode buf tz = Except.ok rec →
      ∃ bs, readAnnots buf (rec.headSize + rec.dataSize + rec.trailerSize) rec.annoSize =
          Except.ok bs ∧
        rec.annots = bs.splitOn 0 ∧ ∀ b ∈ bs, b < 128) ∧
    readAnnots [195, 169] 0 2 = Except.error DecodeError.unicodeDecodeError := by
  refine ⟨?_, ?_, by decide!⟩
  · intro buf aOff size h0 hle
    have := annoGo_isOk_iff buf aOff h0 size 0 (by omega)
    unfold readAnnots
    rw [this]
    constructor
    · intro hall j hj
      have := hall j hj
      rw [show aOff.toNat + 0 + j = aOff.toNat + j by omega] at this
      exact this
    · intro hall j hj
      rw [show aOff.toNat + 0 + j = aOff.toNat + j by omega]
      exact hall j hj
  · intro buf tz rec h
    obtain ⟨hd, chans, annoB, np, hhd, hchans, hanno, hnp, hrec⟩ := decode_ok_elim h
    subst hrec
    exact ⟨annoB, hanno, rfl, annoGo_ok_all_lt buf _ hd.annoSize 0 annoB hanno⟩

/-- C10 witness: part (1) applied to the annotation region of `bufOK`
(offset 190, four ASCII bytes) and part (3) as stated. -/
theorem claim10_witness :
    (0 : Int) ≤ 190 ∧ (190 : Int).toNat + 4 ≤ bufOK.length ∧
    (readAnnots bufOK 190 4).isOk = true ∧
    readAnnots [195, 169] 0 2 = Except.error DecodeError.unicodeDecodeError :=
  ⟨by decide!, by decide!,
    (claim10_byte_wise_utf8.1 bufOK 190 4 (by decide!) (by decide!)).mpr (by decide!),
    claim10_byte_wise_utf8.2.2⟩

theorem pyIndex_last_ok {α : Type} (l : List α) (h : 0 < l.length) :
    pyIndex l (-1 : Int) = Except.ok (l.get ⟨l.length - 1, by omega⟩) := by
  rw [pyIndex_neg_one_eq]
  rw [show ((l.length : Int) - 1) = ((l.length - 1 : Nat) : Int) by omega]
  exact pyIndex_ofNat l (l.length - 1) (by omega)

/-- C3 counterexample: on a decoded two-channel recording, channel index
0 does not fail at all — `data` returns the calibrated last raw sample,
`unit` returns the last channel's unit and `chAnnotation` the last
annotation part, by Python negative indexing — so the accessors do not
fail with `InvalidChannelIndex` on the out-of-range index 0. -/
theorem claim3_counterexample :
    (decode bufOK 0).isOk = true ∧
    (getRec bufOK 0).nChannels = 2 ∧
    data (getRec bufOK 0) 0 = Except.ok [1] ∧
    unit (getRec bufOK 0) 0 = Except.ok [109, 86] ∧
    chAnnot (getRec bufOK 0) 0 = Except.ok [] ∧
    data (getRec bufOK 0) 0 ≠ Except.error DecodeError.invalidChannelIndex := by
  decide!

/-- C3 amended: the channel-indexed accessors perform no bounds check.
On every decoded recording, index 0 wraps around by Python negative
indexing — `data 0` succeeds (slicing from the last raw sample with the
last channel's calibration), `unit 0` coincides with
`unit channel_count` and `chAnnotation 0` succeeds with the last
annotation part — while index `channel_count + 1` makes `data` and
`unit` fail with `IndexError` (a raw list-index failure, not a typed
`InvalidChannelIndex`). -/
theorem claim3_no_bounds_check (buf : List Nat) (tz : Int) (rec : Recording)
    (h : decode buf tz = Except.ok rec) :
    (data rec 0).isOk = true ∧
    unit rec 0 = unit rec (rec.nChannels : Int) ∧
    (chAnnot rec 0).isOk = true ∧
    data rec ((rec.nChannels : Int) + 1) = Except.error DecodeError.indexError ∧
    unit rec ((rec.nChannels : Int) + 1) = Except.error DecodeError.indexError := by
  obtain ⟨hn, hlen, hann, _⟩ := decode_ok_basic h
  have hz : ((0 : Int) - 1) = (-1 : Int) := by norm_num
  have e3 : ((rec.nChannels : Int) + 1 - 1) = ((rec.nChannels : Nat) : Int) := by omega
  refine ⟨?_, ?_, ?_, ?_, ?_⟩
  · unfold data
    rw [hz]
    unfold pySlice
    rw [if_neg (by omega), ok_bind]
    rw [pyIndex_last_ok _ (by rw [List.length_map]; omega), ok_bind]
    rw [pyIndex_last_ok _ (by rw [List.length_map]; omega), ok_bind]
    rfl
  · unfold unit
    rw [hz]
    have e2 : pyIndex (rec.chans.map Chan.engUnits) (-1 : Int) =
        pyIndex (rec.chans.map Chan.engUnits) ((rec.nChannels : Int) - 1) := by
      rw [pyIndex_neg_one_eq, List.length_map, hlen]
    rw [e2]
  · unfold chAnnot
    rw [hz]
    rw [pyIndex_last_ok _ (List.length_pos.mpr hann)]
    rfl
  · unfold data
    rw [e3]
    unfold pySlice
    rw [if_neg (by omega), ok_bind]
    rw [pyIndex_ofNat_err _ _ (by rw [List.length_map]; omega), error_bind]
  · unfold unit
    rw [e3]
    rw [pyIndex_ofNat_err _ _ (by rw [List.length_map]; omega), error_bind]

/-- C3 witness: the amended theorem applied to `bufOK`. -/
theorem claim3_witness :
    decode bufOK 0 = Except.ok (getRec bufOK 0) ∧
      ((data (getRec bufOK 0) 0).isOk = true ∧
        unit (getRec bufOK 0) 0 = unit (getRec bufOK 0) ((getRec bufOK 0).nChannels : Int) ∧
        (chAnnot (getRec bufOK 0) 0).isOk = true ∧
        data (getRec bufOK 0) (((getRec bufOK 0).nChannels : Int) + 1) =
          Except.error DecodeError.indexError ∧
        unit (getRec bufOK 0) (((getRec bufOK 0).nChannels : Int) + 1) =
          Except.error DecodeError.indexError) :=
  ⟨by decide!, claim3_no_bounds_check bufOK 0 (getRec bufOK 0) (by decide!)⟩

/-- C8 counterexample: a packed one-channel file whose entry has bytes
5, 6, 9 at entry offsets 30, 31, 32.  The decoder reads the divisor at
entry offset 31 (not 30, directly after the unit tag, as the claimed
layout has it) and the physical-channel byte always at entry offset 32 —
also in the unpacked variant, where the claimed layout would read it at
offset 30.  The physical-channel offset therefore does not shift with
`packed`. -/
theorem claim8_counterexample :
    (decode bufC8p 0).isOk = true ∧ (getRec bufC8p 0).packed = 1 ∧
    (getRec bufC8p 0).chans.map Chan.phyChannel = [9] ∧
    (getRec bufC8p 0).chans.map Chan.sampleRateDivisor = [6] ∧
    specLayoutPhy bufC8p 110 36 true 0 = Except.ok 6 ∧
    specLayoutDivisor bufC8p 110 36 true 0 = Except.ok 5 ∧
    (decode bufC8u 0).isOk = true ∧ (getRec bufC8u 0).packed = 0 ∧
    (getRec bufC8u 0).chans.map Chan.phyChannel = [9] ∧
    specLayoutPhy bufC8u 110 36 false 0 = Except.ok 5 ∧
    (9 : Nat) ≠ 6 ∧ (9 : Nat) ≠ 5 ∧ (6 : Nat) ≠ 5 := by
  decide!

/-- C8 amended: the per-channel fields are read in order slope (f32,
entry offset 0), intercept (f32, offset 4), cal-scale (f64, offset 8),
cal-intercept (f64, offset 16) and the 6-byte unit tag (offset 24); the
divisor byte is read at entry offset 31 — one byte after the unit tag's
end, offset 30 being skipped — and only when `packed` is set (the
divisor is 1 otherwise); the physical-channel byte is always read at
entry offset 32, regardless of whether the divisor byte was read — its
offset does not shift. -/
theorem claim8_entry_layout (buf : List Nat) (tz : Int) (rec : Recording)
    (h : decode buf tz = Except.ok rec) (i : Nat) (ch : Chan)
    (hch : rec.chans.get? i = some ch) :
    readF32 buf ((rec.hChannels : Int) + rec.hChannelSize * i) =
      Except.ok ch.scalingSlope ∧
    readF32 buf ((rec.hChannels : Int) + rec.hChannelSize * i + 4) =
      Except.ok ch.scalingIntercept ∧
    readF64 buf ((rec.hChannels : Int) + rec.hChannelSize * i + 8) =
      Except.ok ch.calScaling ∧
    readF64 buf ((rec.hChannels : Int) + rec.hChannelSize * i + 16) =
      Except.ok ch.calIntercept ∧
    readBytesAt buf ((rec.hChannels : Int) + rec.hChannelSize * i + 24) 6 =
      Except.ok ch.engUnits ∧
    (rec.packed ≠ 0 →
      readU8 buf ((rec.hChannels : Int) + rec.hChannelSize * i + 31) =
        Except.ok ch.sampleRateDivisor) ∧
    (rec.packed = 0 → ch.sampleRateDivisor = 1) ∧
    readU8 buf ((rec.hChannels : Int) + rec.hChannelSize * i + 32) =
      Except.ok ch.phyChannel := by
  obtain ⟨hd, chans, annoB, np, hhd, hchans, hanno, hnp, hrec⟩ := decode_ok_elim h
  obtain ⟨_, hfields⟩ := readChannels_ok_elim hchans
  subst hrec
  have hf := hfields i ch hch
  obtain ⟨f1, f2, f3, f4, f5, f6, f7⟩ := hf
  refine ⟨f1, f2, ?_, ?_, ?_, ?_, ?_, ?_⟩
  · show readF64 buf ((hd.hChannels : Int) + hd.hChannelSize * i + 8) = _
    rw [show ((hd.hChannels : Int) + hd.hChannelSize * i + 8) =
      ((hd.hChannels : Int) + hd.hChannelSize * i + 4 + 4) by ring]
    exact f3
  · show readF64 buf ((hd.hChannels : Int) + hd.hChannelSize * i + 16) = _
    rw [show ((hd.hChannels : Int) + hd.hChannelSize * i + 16) =
      ((hd.hChannels : Int) + hd.hChannelSize * i + 4 + 4 + 8) by ring]
    exact f4
  · show readBytesAt buf ((hd.hChannels : Int) + hd.hChannelSize * i + 24) 6 = _
    rw [show ((hd.hChannels : Int) + hd.hChannelSize * i + 24) =
      ((hd.hChannels : Int) + hd.hChannelSize * i + 4 + 4 + 8 + 8) by ring]
    exact f5
  · intro hp
    show readU8 buf ((hd.hChannels : Int) + hd.hChannelSize * i + 31) = _
    unfold readDivisor at f6
    rw [if_pos hp] at f6
    rw [show ((hd.hChannels : Int) + hd.hChannelSize * i + 31) =
      ((hd.hChannels : Int) + hd.hChannelSize * i + 4 + 4 + 8 + 8 + 6 + 1) by ring]
    exact f6
  · intro hp
    have hp' : hd.packed = 0 := hp
    unfold readDivisor at f6
    rw [if_neg (by omega)] at f6
    exact (Except.ok.inj f6).symm
  · show readU8 buf ((hd.hChannels : Int) + hd.hChannelSize * i + 32) = _
    rw [show ((hd.hChannels : Int) + hd.hChannelSize * i + 32) =
      ((hd.hChannels : Int) + hd.hChannelSize * i + 4 + 4 + 8 + 8 + 6 + 1 + 1) by ring]
    exact f7

/-- C8 witness: the amended theorem applied to `bufC8p`, channel 0. -/
theorem claim8_witness :
    decode bufC8p 0 = Except.ok (getRec bufC8p 0) ∧
    (getRec bufC8p 0).chans.get? 0 =
      some { scalingSlope := 0, scalingIntercept := 0, calScaling := 0, calIntercept := 0,
             engUnits := [0, 0, 0, 0, 0, 0], sampleRateDivisor := 6, phyChannel := 9 } ∧
    readU8 bufC8p (((getRec bufC8p 0).hChannels : Int) +
        (getRec bufC8p 0).hChannelSize * 0 + 32) = Except.ok 9 :=
  ⟨by decide!, by decide!,
    (claim8_entry_layout bufC8p 0 (getRec bufC8p 0) (by decide!) 0
      { scalingSlope := 0, scalingIntercept := 0, calScaling := 0, calIntercept := 0,
        engUnits := [0, 0, 0, 0, 0, 0], sampleRateDivisor := 6, phyChannel := 9 }
      (by decide!)).2.2.2.2.2.2.2⟩

/-- C1: on every decoded recording and every channel index `c` in
`1..=channel_count`, `data` returns the list obtained by taking the raw
signed 16-bit samples of that channel from the interleaved sample block
(offset `c-1`, stride `channel_count`) and mapping each raw `r` to
`cal_scale * scaled + cal_intercept`, where `scaled` is `r * 0.25` under
high resolution and `floor (r * 0.25)` otherwise; and on the concrete
inputs `{-4..4}` with `cal_scale = 1`, `cal_intercept = 0` the scaled
values are `{-1,-1,-1,-1,0,0,0,0,1}` in standard resolution and the
exact quarters in high resolution. -/
theorem claim1_channel_values (buf : List Nat) (tz : Int) (rec : Recording) (c : Nat)
    (h : decode buf tz = Except.ok rec) (hc1 : 1 ≤ c) (hc2 : c ≤ rec.nChannels) :
    (∃ vals cs ci,
      data rec (c : Int) = Except.ok vals ∧
      (rec.chans.map Chan.calScaling).get? (c - 1) = some cs ∧
      (rec.chans.map Chan.calIntercept).get? (c - 1) = some ci ∧
      ∀ k : Nat, vals.get? k =
        Option.map (fun r => cs * scaledRaw rec.hiRes r + ci)
          (rec.npdata.get? ((c - 1) + rec.nChannels * k))) ∧
    List.map (scaledRaw 0) [-4, -3, -2, -1, 0, 1, 2, 3, 4] =
      [-1, -1, -1, -1, 0, 0, 0, 0, 1] ∧
    List.map (scaledRaw 2) [-4, -3, -2, -1, 0, 1, 2, 3, 4] =
      [-1, -3/4, -1/2, -1/4, 0, 1/4, 1/2, 3/4, 1] := by
  refine ⟨?_, by decide!, by decide!⟩
  obtain ⟨hn, hlen, -, -⟩ := decode_ok_basic h
  have hcs : c - 1 < (rec.chans.map Chan.calScaling).length := by
    rw [List.length_map]; omega
  have hci : c - 1 < (rec.chans.map Chan.calIntercept).length := by
    rw [List.length_map]; omega
  have hne : rec.nChannels ≠ 0 := by omega
  unfold data
  rw [show ((c : Int) - 1) = ((c - 1 : Nat) : Int) by omega]
  rw [pySlice_ofNat _ _ _ hne, ok_bind]
  rw [pyIndex_ofNat _ _ hcs, ok_bind]
  rw [pyIndex_ofNat _ _ hci, ok_bind]
  rw [pure_eq_ok]
  refine ⟨_, _, _, rfl, List.get?_eq_get hcs, List.get?_eq_get hci, ?_⟩
  intro k
  rw [List.get?_map, List.get?_map]
  rw [pySlice_ok_get? rec.npdata (c - 1) rec.nChannels k hne]
  rw [Option.map_map]
  rfl

/-- C1 witness: the theorem applied to `bufOK` and channel 1 (raw
samples 1 and 3, standard resolution, unit calibration). -/
theorem claim1_witness :
    decode bufOK 0 = Except.ok (getRec bufOK 0) ∧ 1 ≤ 1 ∧
      1 ≤ (getRec bufOK 0).nChannels ∧
      (∃ vals cs ci,
        data (getRec bufOK 0) (1 : Int) = Except.ok vals ∧
        ((getRec bufOK 0).chans.map Chan.calScaling).get? (1 - 1) = some cs ∧
        ((getRec bufOK 0).chans.map Chan.calIntercept).get? (1 - 1) = some ci ∧
        ∀ k : Nat, vals.get? k =
          Option.map (fun r => cs * scaledRaw (getRec bufOK 0).hiRes r + ci)
            ((getRec bufOK 0).npdata.get? ((1 - 1) + (getRec bufOK 0).nChannels * k))) :=
  ⟨by decide!, le_refl 1, by decide!,
    ((claim1_channel_values bufOK 0 (getRec bufOK 0) 1 (by decide!) (le_refl 1)
      (by decide!)).1)⟩
